import Mathlib

/-!
Shallow embedding of the VM-pool benchmark orchestrator (`bench` package):
the admission/batching loop of `Bench._guests_prepare`, the memory-size
derivations of `Bench.dram_size` / `Bench.pmem_size`, the balloon sizing of
`Balloon.to_size` / `Balloon.to_cmdline`, the hypervisor argument builder
`Vm.args`, the scoped startup/teardown of `Vm.__enter__` / `Vm.__exit__`,
the readiness prober `Vm.wait_for_boot`, and the control-plane client
`Resource.get` / `Resource.request`.

Python integers are modelled as `Nat` / `Int`; the float `dram_ratio` is
modelled as an exact rational (every IEEE-754 double is a dyadic rational);
`int()` truncation and floor division `//` are modelled explicitly.
-/

namespace Demeter

/-! ### utils.py -/

def PAGE_SIZE : ℕ := 4096

inductive Kernel
  | demeter
  | memtis
  | nomad
  | tpp
deriving DecidableEq

inductive Balloon
  | hetero
  | legacy
deriving DecidableEq

/-- `Balloon.to_size` from utils.py lines 28-33. -/
def Balloon.to_size : Balloon → ℤ → ℤ → ℤ → ℤ × ℤ
  | .hetero, total_mem, dram_avail, pmem_avail =>
      (total_mem - dram_avail, total_mem - pmem_avail)
  | .legacy, total_mem, dram_avail, pmem_avail =>
      (total_mem - dram_avail + total_mem - pmem_avail, 0)

/-- `Balloon.to_cmdline` from utils.py lines 35-42. -/
def Balloon.to_cmdline (b : Balloon) (total_mem dram_avail pmem_avail : ℤ) : String :=
  let dp := b.to_size total_mem dram_avail pmem_avail
  let d := dp.1
  let p := dp.2
  match b with
  | .hetero => s!"size=[{d},{p}],heterogeneous_memory=on"
  | .legacy => s!"size=[{d},{p}]"

/-- Python `int()` truncates toward zero. -/
def pyInt (q : ℚ) : ℤ := if 0 ≤ q then ⌊q⌋ else ⌈q⌉

/-- `round_down(n, m) = int(n) // m * m` (utils.py lines 144-145); Python `//`
on integers is floor division, i.e. `Int.fdiv`. -/
def round_down (n : ℚ) (m : ℕ) : ℤ := Int.fdiv (pyInt n) m * m

/-- `round_up(n, m) = (int(n) + m - 1) // m * m` (utils.py lines 148-149). -/
def round_up (n : ℚ) (m : ℕ) : ℤ := Int.fdiv (pyInt n + m - 1) m * m

/-! ### bench.py: derived sizes -/

/-- `Bench.dram_size = round_down(self.mem * self.dram_ratio, PAGE_SIZE)`. -/
def dram_size (mem : ℕ) (dram_ratio : ℚ) : ℤ :=
  round_down ((mem : ℚ) * dram_ratio) PAGE_SIZE

/-- `Bench.pmem_size = round_up(self.mem * (1 - self.dram_ratio), PAGE_SIZE)`. -/
def pmem_size (mem : ℕ) (dram_ratio : ℚ) : ℤ :=
  round_up ((mem : ℚ) * (1 - dram_ratio)) PAGE_SIZE

/-! ### bench.py: the admission loop of `Bench._guests_prepare`

The hetero branch repeatedly reads free memory on the DRAM node, computes
`enough = free // vmmem` and `batch = min(enough, remain)`, and prepares
`vms[remain - batch : remain]` as one batch, decrementing `remain`.
`freeSeq k` is the value returned by the k-th call of `node_memory_free`.
Batches are reported as the lists of admitted VM indices. -/

/-- `enough = free // vmmem` of bench.py line 89 (floor division; `vmmem` may
be fractional when no balloon is configured, since it is then
`mem * dram_ratio` with a float ratio). -/
def affordable (free : ℕ) (vmmem : ℚ) : ℕ := (⌊(free : ℚ) / vmmem⌋).toNat

/-- The batch selection of one iteration of the inner admission loop
(bench.py lines 89-95), given `enough`: `batch = min(enough, remain)` and
the indices of the admitted VMs, `vms[remain - batch : remain]`. -/
def admissionBatch (enough remain : ℕ) : ℕ × List ℕ :=
  let batch := min enough remain
  (batch, (List.range batch).map (fun i => remain - batch + i))

/-- One iteration of the inner admission loop (bench.py lines 85-95):
read free memory, compute `enough = free // vmmem`, and select the batch.
-/
def admissionStep (free : ℕ) (vmmem : ℚ) (remain : ℕ) : ℕ × List ℕ :=
  admissionBatch (affordable free vmmem) remain

/-- The inner `while remain > 0` loop (bench.py lines 84-104).  `aff k` is
the value of `free // vmmem` at the k-th free-memory read (`vmmem` is
loop-invariant in the source, so the loop is parametrized by this
sequence; `guestsPrepare` instantiates it with `affordable`).  `fuel` is
an upper bound on the number of iterations (each admitted batch is
nonempty, so `remain` strictly decreases and `fuel = remain` suffices).
Returns the final `remain`, the next free-memory read index, and the
admitted batches in order. -/
def innerLoop (aff : ℕ → ℕ) : ℕ → ℕ → ℕ → ℕ × ℕ × List (List ℕ)
  | 0, k, remain => (remain, k, [])
  | fuel + 1, k, remain =>
    if remain = 0 then (remain, k, [])
    else
      let s := admissionBatch (aff k) remain
      if s.1 = 0 then (remain, k + 1, [])
      else
        let r := innerLoop aff fuel (k + 1) (remain - s.1)
        (r.1, r.2.1, s.2 :: r.2.2)

/-- The outer `for retry in reversed(range(self.timeout))` loop
(bench.py lines 83-108): the list argument is the remaining retry values.
On exhaustion with VMs still pending it raises
`RuntimeError("Not enough memory for all VMs")`. -/
def outerLoop (aff : ℕ → ℕ) :
    List ℕ → ℕ → ℕ → Except String (List (List ℕ))
  | [], _, _ => .ok []
  | r :: rest, k, remain =>
    let s := innerLoop aff remain k remain
    if s.1 = 0 then .ok s.2.2
    else if r = 0 then .error "Not enough memory for all VMs"
    else
      match outerLoop aff rest s.2.1 s.1 with
      | .ok bs => .ok (s.2.2 ++ bs)
      | .error e => .error e

/-- `Bench._guests_prepare` (bench.py lines 79-117) restricted to its
batching behaviour: which VM indices are prepared in which batch.  With
`hetero` the memory-gated loop runs with `vmmem = mem` when a balloon is
configured and `vmmem = mem * dram_ratio` otherwise (lines 86-88); without
`hetero` the whole pool is one batch (lines 109-117). -/
def guestsPrepare (freeSeq : ℕ → ℕ) (mem : ℕ) (dram_ratio : ℚ)
    (balloon : Option Balloon) (hetero : Bool) (num timeout : ℕ) :
    Except String (List (List ℕ)) :=
  if hetero then
    let vmmem : ℚ := if balloon.isSome then (mem : ℚ) else (mem : ℚ) * dram_ratio
    outerLoop (fun k => affordable (freeSeq k) vmmem) ((List.range timeout).reverse) 0 num
  else .ok [List.range num]

/-- `balloon_wait = int(self.mem >> 30) * 3` (bench.py lines 102 and 116):
the number of seconds slept after a batch with a balloon device is enabled,
before the next free-memory read. -/
def balloonWait (mem : ℕ) : ℕ := (mem >>> 30) * 3

/-- The exact rational value of the IEEE-754 double `0.4`, the default
`dram_ratio` of `Bench`. -/
def floatRatio04 : ℚ := 3602879701896397 / 9007199254740992

/-! ### vm_api.py: the control-plane client -/

def HTTPStatus.OK : ℕ := 200

def HTTPStatus.NO_CONTENT : ℕ := 204

structure Response where
  status_code : ℕ
  text : String
deriving DecidableEq

namespace Resource

/-- `Resource.get` (vm_api.py lines 18-24): raise `RuntimeError(res.text)`
unless the status is `HTTPStatus.OK`.  The response delivered by the HTTP
session is the argument. -/
def get (res : Response) : Except String Response :=
  if res.status_code ≠ HTTPStatus.OK then .error res.text else .ok res

/-- The body-building dict comprehension of `Resource.request`
(vm_api.py line 28): fields whose value is `None` are dropped. -/
def requestBody {V : Type} (kwargs : List (String × Option V)) :
    List (String × Option V) :=
  kwargs.filter (fun kv => kv.2.isSome)

/-- `Resource.request` (vm_api.py lines 26-33), used by `put` and `patch`:
send the filtered body, then raise `RuntimeError(res.text)` unless the
status is `HTTPStatus.NO_CONTENT`.  `respond` maps the sent body to the
response the session returns. -/
def request {V : Type} (kwargs : List (String × Option V))
    (respond : List (String × Option V) → Response) : Except String Response :=
  let res := respond (requestBody kwargs)
  if res.status_code ≠ HTTPStatus.NO_CONTENT then .error res.text else .ok res

end Resource

/-! ### vm.py: hypervisor argument vector (`Vm.args`) -/

/-- `islice(cycle(node_to_cpus(cpu_node)), vcpus * id, vcpus * (id + 1))`
(vm.py lines 159-161). -/
def hostCpus (node_cpus : List ℕ) (vcpus id : ℕ) : List ℕ :=
  if node_cpus.isEmpty then []
  else (List.range vcpus).map (fun i => node_cpus[(vcpus * id + i) % node_cpus.length]!)

/-- The `zones` entry of `Vm.args` (vm.py lines 168-174): with `hetero`, two
zones whose sizes are `total_mem` when a balloon is configured and
`dram_size` / `pmem_size` otherwise; without `hetero`, one flat zone of
`total_mem`. -/
def zoneArgs (hetero : Bool) (balloon : Option Balloon)
    (total_mem dram_size pmem_size : ℤ) (dram_node pmem_node : ℕ) : List String :=
  if hetero then
    let dsize := if balloon.isSome then total_mem else dram_size
    let psize := if balloon.isSome then total_mem else pmem_size
    ["--memory-zone",
      s!"id=dram,size={dsize},shared=on,host_numa_node={dram_node}",
      s!"id=pmem,size={psize},shared=on,host_numa_node={pmem_node}"]
  else
    ["--memory-zone", s!"id=ram,size={total_mem},shared=on"]

/-- `Vm.args` (vm.py lines 136-206): the full hypervisor argument vector,
the concatenation of the `args` dict values in insertion order. -/
def vmArgs (hetero : Bool) (id : ℕ) (node_cpus : List ℕ) (vcpus : ℕ)
    (total_mem : ℤ) (dram_node : ℕ) (dram_size : ℤ) (pmem_node : ℕ)
    (pmem_size : ℤ) (kernel cmdline rootfs data_socket out_socket tap mac : String)
    (balloon : Option Balloon) (gdb : Option String) (pml : Bool)
    (api : String) : List String :=
  let host_cpus := String.intercalate "," ((hostCpus node_cpus vcpus id).map toString)
  let affinity := String.intercalate ","
    ((List.range vcpus).map (fun v => s!"{v}@[{host_cpus}]"))
  let vmax := vcpus - 1
  ["cloud-hypervisor"] ++
  ["--cpus", s!"boot={vcpus},affinity=[{affinity}]"] ++
  ["--memory", "size=0,shared=on"] ++
  zoneArgs hetero balloon total_mem dram_size pmem_size dram_node pmem_node ++
  (if hetero then
    ["--numa", s!"guest_numa_id=0,cpus=[0-{vmax}]",
      "guest_numa_id=1,memory_zones=[dram]",
      "guest_numa_id=2,memory_zones=[pmem]"]
   else []) ++
  ["--kernel", kernel] ++
  ["--cmdline", cmdline] ++
  ["--disk", s!"path={rootfs}"] ++
  ["--fs", s!"tag=data,socket={data_socket}", s!"tag=out,socket={out_socket}"] ++
  ["--net", s!"tap={tap},mac={mac}"] ++
  (match balloon with
   | some b =>
      ["--balloon",
        if hetero then b.to_cmdline total_mem dram_size pmem_size
        else "size=[0,0]"]
   | none => []) ++
  ["--console", "off"] ++
  ["--serial", "tty"] ++
  (match gdb with
   | some g => ["--gdb", s!"path={g}"]
   | none => []) ++
  (if pml then ["--hmem", "delay=10s,interval=100ms"] else []) ++
  ["--api-socket", s!"path={api}"]

/-! ### vm.py: scoped startup (`Vm.__enter__`) and teardown (`Vm.__exit__`)

`__enter__` pushes sub-resources onto an `ExitStack` in order: virtiofsd on
the data dir, virtiofsd on the output dir, the cloud-hypervisor daemon;
then performs the control-plane `info` read and constructs the SSH
connection.  Any exception closes the stack (releasing in LIFO order) and
re-raises.  `__exit__` closes the stack, stopping the daemons in reverse
acquisition order. -/

inductive VmStep
  | startDataFs
  | startOutFs
  | startHyp
  | apiInfo
  | sshConnect
deriving DecidableEq

inductive VmRes
  | dataFs
  | outFs
  | hyp
deriving DecidableEq

/-- Which steps of `Vm.__enter__` push a daemon onto the `ExitStack`
(vm.py lines 247-256); the `info` read and the SSH construction acquire no
stack entry. -/
def VmStep.acquires : VmStep → Option VmRes
  | .startDataFs => some .dataFs
  | .startOutFs => some .outFs
  | .startHyp => some .hyp
  | .apiInfo => none
  | .sshConnect => none

/-- The acquisition order of `Vm.__enter__` (vm.py lines 244-261). -/
def vmSteps : List VmStep :=
  [.startDataFs, .startOutFs, .startHyp, .apiInfo, .sshConnect]

/-- Run the body of `Vm.__enter__`: `failAt s = true` means step `s` raises.
On failure the stack is closed, releasing the resources in LIFO order (the
returned list, head released first), and the failing step is reported
(vm.py lines 262-265).  On success the final stack is returned; closing it
is exactly what `Vm.__exit__` does (vm.py line 306). -/
def enterVmGo (failAt : VmStep → Bool) :
    List VmStep → List VmRes → Except (VmStep × List VmRes) (List VmRes)
  | [], stack => .ok stack
  | s :: rest, stack =>
    if failAt s then .error (s, stack)
    else enterVmGo failAt rest (s.acquires.toList ++ stack)

def enterVm (failAt : VmStep → Bool) : Except (VmStep × List VmRes) (List VmRes) :=
  enterVmGo failAt vmSteps []

/-- The daemons acquired over a full successful startup, in acquisition
order. -/
def vmAcquired : List VmRes := vmSteps.filterMap VmStep.acquires

/-! ### vm.py: `Vm.wait_for_boot` (lines 308-321)

`for retry in reversed(range(timeout))`: run a trivial SSH command; a
transport-level failure (`NoValidConnectionsError` / `GroupException`) is
swallowed; success breaks; any other exception propagates; when `retry`
reaches 0 after a swallowed failure, raise
`RuntimeError(f"vm {id} failed to boot")`.  `attempt n` is the outcome of
the n-th SSH attempt; the result carries the number of attempts made. -/

inductive ProbeOutcome
  | success
  | transport
  | failure (msg : String)
deriving DecidableEq

inductive VmError
  | bootTimeout (id : ℕ)
  | other (msg : String)
deriving DecidableEq

def waitLoopGo (id : ℕ) (attempt : ℕ → ProbeOutcome) :
    List ℕ → ℕ → Except VmError Unit × ℕ
  | [], n => (.ok (), n)
  | r :: rest, n =>
    match attempt n with
    | .success => (.ok (), n + 1)
    | .transport =>
      if r = 0 then (.error (.bootTimeout id), n + 1)
      else waitLoopGo id attempt rest (n + 1)
    | .failure msg => (.error (.other msg), n + 1)

def wait_for_boot (timeout id : ℕ) (attempt : ℕ → ProbeOutcome) :
    Except VmError Unit × ℕ :=
  waitLoopGo id attempt ((List.range timeout).reverse) 0

/-! ## Theorems -/

/-- Claim C10: both balloon modes reclaim the same total amount of guest
memory: the two components of `Balloon.to_size` sum to
`2 * total_mem - dram_avail - pmem_avail` in both the hetero and the
legacy mode. -/
theorem balloon_to_size_sum (b : Balloon) (total_mem dram_avail pmem_avail : ℤ) :
    (b.to_size total_mem dram_avail pmem_avail).1 +
      (b.to_size total_mem dram_avail pmem_avail).2 =
      2 * total_mem - dram_avail - pmem_avail := by
  cases b <;> simp [Balloon.to_size] <;> ring

/-- Claim C3: the teardown of a fully started VM releases in the exact
reverse of the acquisition order: acquisition is data-fs daemon, out-fs
daemon, hypervisor daemon, control-plane info read, SSH construction; the
`ExitStack` left for `Vm.__exit__` stops hypervisor, then out-fs, then
data-fs. -/
theorem vm_teardown_reverse_order :
    enterVm (fun _ => false) = .ok vmAcquired.reverse ∧
    vmAcquired = [.dataFs, .outFs, .hyp] ∧
    vmAcquired.reverse = [.hyp, .outFs, .dataFs] ∧
    vmSteps = [.startDataFs, .startOutFs, .startHyp, .apiInfo, .sshConnect] :=
  ⟨rfl, rfl, rfl, rfl⟩

/-- Claim C2: when the two filesystem daemons started but a later step of
`Vm.__enter__` (hypervisor launch, control-plane info read, or SSH
construction) raises, every sub-resource acquired so far is released, in
LIFO order, before the exception is re-raised; the hypervisor is not in
the release list when its launch itself failed. -/
theorem vm_enter_rollback (failAt : VmStep → Bool)
    (h1 : failAt .startDataFs = false) (h2 : failAt .startOutFs = false) :
    (failAt .startHyp = true →
      enterVm failAt = .error (.startHyp, [.outFs, .dataFs])) ∧
    (failAt .startHyp = false → failAt .apiInfo = true →
      enterVm failAt = .error (.apiInfo, [.hyp, .outFs, .dataFs])) ∧
    (failAt .startHyp = false → failAt .apiInfo = false →
        failAt .sshConnect = true →
      enterVm failAt = .error (.sshConnect, [.hyp, .outFs, .dataFs])) := by
  refine ⟨fun h3 => ?_, fun h3 h4 => ?_, fun h3 h4 h5 => ?_⟩ <;>
    simp [enterVm, enterVmGo, vmSteps, VmStep.acquires, h1, h2, h3, *]

theorem vm_enter_rollback_witness :
    enterVm (fun s => s = VmStep.apiInfo) =
      .error (.apiInfo, [.hyp, .outFs, .dataFs]) :=
  (vm_enter_rollback (fun s => s = VmStep.apiInfo) rfl rfl).2.1 rfl rfl

/-- Claim C9 counterexample: at `mem = 2^30 + 1` bytes the code waits
`int(mem >> 30) * 3 = 3` seconds, while `ceil(mem_GiB) * 3 = 6`: the wait
uses the floor, not the ceiling, of the GiB count. -/
theorem balloon_wait_not_ceil :
    balloonWait 1073741825 = 3 ∧
    (1073741825 + 1073741824 - 1) / 1073741824 * 3 = 6 ∧ (3 : ℕ) ≠ 6 := by
  decide

/-- Claim C9 (amended): after a batch with a balloon device is admitted the
loop pauses `floor(mem_GiB) * 3` seconds before the next free-memory
read. -/
theorem balloon_wait_floor (mem : ℕ) : balloonWait mem = mem / 2 ^ 30 * 3 := by
  rw [balloonWait, Nat.shiftRight_eq_div_pow]

lemma range_drop (n b : ℕ) (h : b ≤ n) :
    (List.range n).drop (n - b) = (List.range b).map (fun i => n - b + i) := by
  obtain ⟨m, rfl⟩ : ∃ m, n = m + b := ⟨n - b, by omega⟩
  simp only [Nat.add_sub_cancel]
  rw [List.range_add, List.drop_left' (List.length_range m)]

/-- Claim C1 counterexample: with observed free memory 2, per-VM
requirement 1 and 3 pending VMs, the iteration admits `vms[1:3]`, not the
front `vms[0:2]` of the pending list. -/
theorem admission_batch_not_from_front :
    (admissionStep 2 1 3).1 = 2 ∧
    (admissionStep 2 1 3).2 = [1, 2] ∧
    (admissionStep 2 1 3).2 ≠ (List.range 3).take (admissionStep 2 1 3).1 := by
  have h2 : ⌊((2 : ℕ) : ℚ) / 1⌋ = 2 := by norm_num
  have h : affordable 2 1 = 2 := by
    unfold affordable
    rw [h2]
    rfl
  refine ⟨?_, ?_, ?_⟩ <;> simp [admissionStep, h] <;> decide

/-- Claim C1 (amended): each iteration of the hetero admission loop admits
a batch of size `min(floor(free / vmmem), remain)`, never more than
`floor(free / vmmem)`, and the admitted VMs are the last `batch` elements
of the pending list `vms[0:remain]` (`vms[remain - batch : remain]`), i.e.
its back, not its front. -/
theorem admission_batch_size_and_origin (free : ℕ) (vmmem : ℚ) (remain : ℕ) :
    (admissionStep free vmmem remain).1 =
      min (⌊(free : ℚ) / vmmem⌋).toNat remain ∧
    (admissionStep free vmmem remain).1 ≤ (⌊(free : ℚ) / vmmem⌋).toNat ∧
    (admissionStep free vmmem remain).2 =
      (List.range remain).drop (remain - (admissionStep free vmmem remain).1) := by
  have hb : (admissionStep free vmmem remain).1 =
      min (affordable free vmmem) remain := rfl
  refine ⟨rfl, ?_, ?_⟩
  · rw [hb]
    exact min_le_left _ _
  · rw [hb, range_drop remain _ (min_le_right _ _)]
    rfl

lemma waitLoopGo_all_transport (id : ℕ) (attempt : ℕ → ProbeOutcome)
    (h : ∀ n, attempt n = .transport) :
    ∀ t n, 0 < t →
      waitLoopGo id attempt ((List.range t).reverse) n =
        (.error (.bootTimeout id), n + t) := by
  intro t
  induction t with
  | zero => omega
  | succ t ih =>
    intro n _
    rw [show (List.range (t + 1)).reverse = t :: (List.range t).reverse by
      rw [List.range_succ]; simp]
    by_cases ht : t = 0
    · subst ht
      simp [waitLoopGo, h n]
    · simp only [waitLoopGo, h n, ht, if_false]
      rw [ih (n + 1) (Nat.pos_of_ne_zero ht)]
      congr 1
      omega

/-- Claim C5 counterexample: with a configured retry budget of 0 the
prober makes no attempt and returns without raising, as if the VM were
ready — it does not fail with the boot-timeout error. -/
theorem wait_for_boot_zero_budget :
    wait_for_boot 0 9 (fun _ => .transport) = (.ok (), 0) ∧
    (Except.ok () : Except VmError Unit) ≠ .error (.bootTimeout 9) :=
  ⟨rfl, fun h => Except.noConfusion h⟩

/-- Claim C5 (amended): for every positive configured retry budget, a VM
whose SSH channel never accepts a connection has each transport failure
swallowed; the prober makes exactly `timeout` attempts and then fails
with the boot-timeout error naming the VM ordinal; a non-transport
failure on an attempt propagates immediately.  (With a zero budget the
loop body never runs and the prober returns without error.) -/
theorem wait_for_boot_budget (timeout id : ℕ) (h : 0 < timeout) :
    (∀ attempt : ℕ → ProbeOutcome, (∀ n, attempt n = .transport) →
      wait_for_boot timeout id attempt = (.error (.bootTimeout id), timeout)) ∧
    (∀ (attempt : ℕ → ProbeOutcome) (msg : String), attempt 0 = .failure msg →
      wait_for_boot timeout id attempt = (.error (.other msg), 1)) := by
  constructor
  · intro attempt ha
    have hmain := waitLoopGo_all_transport id attempt ha timeout 0 h
    simpa [wait_for_boot] using hmain
  · intro attempt msg ha
    obtain ⟨t, rfl⟩ : ∃ t, timeout = t + 1 := ⟨timeout - 1, by omega⟩
    rw [wait_for_boot, show (List.range (t + 1)).reverse = t :: (List.range t).reverse by
      rw [List.range_succ]; simp]
    simp [waitLoopGo, ha]

theorem wait_for_boot_budget_witness :
    wait_for_boot 2 7 (fun _ => .transport) = (.error (.bootTimeout 7), 2) :=
  (wait_for_boot_budget 2 7 (by decide)).1 (fun _ => .transport) (fun _ => rfl)

/-- Claim C7: with heterogeneous memory, a configured balloon makes both
guest memory zones of the hypervisor argument vector `total_mem` bytes
each, and no balloon makes them `dram_size` / `pmem_size`; without
heterogeneous memory a single flat zone of `total_mem` is emitted.  The
zone strings are part of the full argument vector `vmArgs`. -/
theorem memory_zone_sizing (tm ds ps : ℤ) (dn pn : ℕ) :
    (∀ b : Balloon, zoneArgs true (some b) tm ds ps dn pn =
      ["--memory-zone",
        s!"id=dram,size={tm},shared=on,host_numa_node={dn}",
        s!"id=pmem,size={tm},shared=on,host_numa_node={pn}"]) ∧
    (zoneArgs true none tm ds ps dn pn =
      ["--memory-zone",
        s!"id=dram,size={ds},shared=on,host_numa_node={dn}",
        s!"id=pmem,size={ps},shared=on,host_numa_node={pn}"]) ∧
    (∀ ob : Option Balloon, zoneArgs false ob tm ds ps dn pn =
      ["--memory-zone", s!"id=ram,size={tm},shared=on"]) ∧
    (∀ (hetero : Bool) (ob : Option Balloon) (id : ℕ) (ncpus : List ℕ)
        (vcpus : ℕ) (kern cmd root dsk osk tap mac apis : String)
        (g : Option String) (pml : Bool) (z : String),
      z ∈ zoneArgs hetero ob tm ds ps dn pn →
      z ∈ vmArgs hetero id ncpus vcpus tm dn ds pn ps kern cmd root dsk osk
            tap mac ob g pml apis) := by
  refine ⟨fun b => rfl, rfl, fun ob => rfl, ?_⟩
  intro hetero ob id ncpus vcpus kern cmd root dsk osk tap mac apis g pml z hz
  simp only [vmArgs, List.mem_append]
  tauto

theorem memory_zone_sizing_witness :
    "id=ram,size=5,shared=on" ∈
      vmArgs false 0 [] 1 5 0 1 0 2 "k" "c" "r" "d" "o" "t" "m" none none false "a" :=
  (memory_zone_sizing 5 1 2 0 0).2.2.2 false none 0 [] 1 "k" "c" "r" "d" "o"
    "t" "m" "a" none false "id=ram,size=5,shared=on" (by decide)

/-- Claim C4: a control-plane `get` returns the response exactly when the
status is `HTTPStatus.OK` and otherwise raises carrying the raw response
body; a mutate (`request`, used by PUT/PATCH) returns exactly when the
status is `HTTPStatus.NO_CONTENT` and otherwise raises carrying the raw
body; every field with value `None` is omitted from the request body, and
every field with a value is kept. -/
theorem control_plane_status_and_body {V : Type} (res : Response)
    (kwargs : List (String × Option V))
    (respond : List (String × Option V) → Response) :
    ((∃ r, Resource.get res = .ok r) ↔ res.status_code = 200) ∧
    (res.status_code ≠ 200 → Resource.get res = .error res.text) ∧
    ((∃ r, Resource.request kwargs respond = .ok r) ↔
      (respond (Resource.requestBody kwargs)).status_code = 204) ∧
    ((respond (Resource.requestBody kwargs)).status_code ≠ 204 →
      Resource.request kwargs respond =
        .error (respond (Resource.requestBody kwargs)).text) ∧
    (∀ (k : String) (v : Option V), (k, v) ∈ Resource.requestBody kwargs →
      v ≠ none) ∧
    (∀ kv : String × Option V, kv ∈ kwargs → kv.2 ≠ none →
      kv ∈ Resource.requestBody kwargs) := by
  refine ⟨?_, ?_, ?_, ?_, ?_, ?_⟩
  · by_cases hc : res.status_code = 200 <;>
      simp [Resource.get, HTTPStatus.OK, hc]
  · intro hne
    simp [Resource.get, HTTPStatus.OK, hne]
  · by_cases hc : (respond (Resource.requestBody kwargs)).status_code = 204 <;>
      simp [Resource.request, HTTPStatus.NO_CONTENT, hc]
  · intro hne
    simp [Resource.request, HTTPStatus.NO_CONTENT, hne]
  · intro k v hm
    rw [Resource.requestBody, List.mem_filter] at hm
    exact Option.isSome_iff_ne_none.mp (by simpa using hm.2)
  · intro kv hmem hne
    rw [Resource.requestBody, List.mem_filter]
    exact ⟨hmem, by simpa using Option.isSome_iff_ne_none.mpr hne⟩

theorem control_plane_status_and_body_witness :
    Resource.get ⟨500, "boom"⟩ = .error "boom" ∧
    Resource.request [("a", (none : Option ℕ))] (fun _ => ⟨400, "bad"⟩) =
      .error "bad" :=
  ⟨(control_plane_status_and_body ⟨500, "boom"⟩ [("a", (none : Option ℕ))]
      (fun _ => ⟨400, "bad"⟩)).2.1 (by decide),
    (control_plane_status_and_body ⟨500, "boom"⟩ [("a", (none : Option ℕ))]
      (fun _ => ⟨400, "bad"⟩)).2.2.2.1 (by decide)⟩

lemma pyInt_eq_floor (q : ℚ) (h : 0 ≤ q) : pyInt q = ⌊q⌋ := if_pos h

/-- Claim C6 counterexample: at `mem = 8192`, `dram_ratio = 8191/16384`
(an exactly representable double), `mem * (1 - dram_ratio) = 4096.5` but
`pmem_size` is 4096 — strictly below the product — because the code
truncates with `int()` before rounding up; so `pmem_size` is not
`mem * (1 - dram_ratio)` rounded up to a multiple of the page size. -/
theorem pmem_size_below_exact_product :
    pmem_size 8192 (8191/16384) = 4096 ∧
    (4096 : ℚ) < ((8192 : ℕ) : ℚ) * (1 - 8191/16384) := by
  constructor
  · have h0 : (0 : ℚ) ≤ ((8192 : ℕ) : ℚ) * (1 - 8191/16384) := by norm_num
    have hfl : ⌊((8192 : ℕ) : ℚ) * (1 - 8191/16384)⌋ = 4096 := by norm_num
    have hPS : ((PAGE_SIZE : ℕ) : ℤ) = 4096 := by norm_num [PAGE_SIZE]
    simp only [pmem_size, round_up]
    rw [pyInt_eq_floor _ h0, hfl, hPS]
    decide
  · norm_num

/-- Claim C6 (amended): for `0 < mem`, `0 ≤ dram_ratio ≤ 1`: `dram_size`
is `mem * dram_ratio` rounded down to a multiple of the page size;
`pmem_size` is `int(mem * (1 - dram_ratio))` — the product truncated to an
integer — rounded up to a multiple of the page size (i.e. the least page
multiple at or above the truncation, not above the exact product); and
`dram_size + pmem_size` is within one page of `mem`. -/
theorem pool_memory_split (mem : ℕ) (ratio : ℚ) (hm : 0 < mem)
    (h0 : 0 ≤ ratio) (h1 : ratio ≤ 1) :
    ((PAGE_SIZE : ℤ) ∣ dram_size mem ratio ∧
      ((dram_size mem ratio : ℤ) : ℚ) ≤ (mem : ℚ) * ratio ∧
      (mem : ℚ) * ratio < ((dram_size mem ratio : ℤ) : ℚ) + (PAGE_SIZE : ℚ)) ∧
    ((PAGE_SIZE : ℤ) ∣ pmem_size mem ratio ∧
      pyInt ((mem : ℚ) * (1 - ratio)) ≤ pmem_size mem ratio ∧
      pmem_size mem ratio < pyInt ((mem : ℚ) * (1 - ratio)) + (PAGE_SIZE : ℤ)) ∧
    |dram_size mem ratio + pmem_size mem ratio - (mem : ℤ)| ≤ (PAGE_SIZE : ℤ) := by
  have hx : (0 : ℚ) ≤ (mem : ℚ) * ratio := mul_nonneg (by positivity) h0
  have hy : (0 : ℚ) ≤ (mem : ℚ) * (1 - ratio) :=
    mul_nonneg (by positivity) (by linarith)
  have hPS : ((PAGE_SIZE : ℕ) : ℤ) = 4096 := by norm_num [PAGE_SIZE]
  have hPSQ : ((PAGE_SIZE : ℕ) : ℚ) = 4096 := by norm_num [PAGE_SIZE]
  have hpx : pyInt ((mem : ℚ) * ratio) = ⌊(mem : ℚ) * ratio⌋ := pyInt_eq_floor _ hx
  have hpy : pyInt ((mem : ℚ) * (1 - ratio)) = ⌊(mem : ℚ) * (1 - ratio)⌋ :=
    pyInt_eq_floor _ hy
  set a : ℤ := ⌊(mem : ℚ) * ratio⌋ with hadef
  set b : ℤ := ⌊(mem : ℚ) * (1 - ratio)⌋ with hbdef
  have hd : dram_size mem ratio = a / 4096 * 4096 := by
    simp only [dram_size, round_down]
    rw [hpx, hPS, Int.fdiv_eq_ediv _ (by norm_num)]
  have hpm : pmem_size mem ratio = (b + 4096 - 1) / 4096 * 4096 := by
    simp only [pmem_size, round_up]
    rw [hpy, hPS, Int.fdiv_eq_ediv _ (by norm_num)]
  have hfx : (a : ℚ) ≤ (mem : ℚ) * ratio := by rw [hadef]; exact Int.floor_le _
  have hfy : (b : ℚ) ≤ (mem : ℚ) * (1 - ratio) := by rw [hbdef]; exact Int.floor_le _
  have hgx : (mem : ℚ) * ratio < (a : ℚ) + 1 := by
    rw [hadef]; exact Int.lt_floor_add_one _
  have hgy : (mem : ℚ) * (1 - ratio) < (b : ℚ) + 1 := by
    rw [hbdef]; exact Int.lt_floor_add_one _
  have hsum : (mem : ℚ) * ratio + (mem : ℚ) * (1 - ratio) = (mem : ℚ) := by ring
  have hab1 : a + b ≤ (mem : ℤ) := by
    have hq : (a : ℚ) + (b : ℚ) ≤ (mem : ℚ) := by linarith
    exact_mod_cast hq
  have hab2 : (mem : ℤ) ≤ a + b + 1 := by
    have hq : (mem : ℚ) < (a : ℚ) + (b : ℚ) + 2 := by linarith
    have hz : (mem : ℤ) < a + b + 2 := by exact_mod_cast hq
    omega
  refine ⟨⟨?_, ?_, ?_⟩, ⟨?_, ?_, ?_⟩, ?_⟩
  · rw [hPS, hd]
    exact dvd_mul_left 4096 (a / 4096)
  · rw [hd]
    have h2 : a / 4096 * 4096 ≤ a := by omega
    have h2q : ((a / 4096 * 4096 : ℤ) : ℚ) ≤ (a : ℚ) := by exact_mod_cast h2
    linarith
  · rw [hd, hPSQ]
    have h3 : a + 1 ≤ a / 4096 * 4096 + 4096 := by omega
    have h3q : (a : ℚ) + 1 ≤ ((a / 4096 * 4096 : ℤ) : ℚ) + 4096 := by
      exact_mod_cast h3
    linarith
  · rw [hPS, hpm]
    exact dvd_mul_left 4096 ((b + 4096 - 1) / 4096)
  · rw [hpy, hpm]
    omega
  · rw [hpy, hpm, hPS]
    omega
  · rw [hd, hpm, hPS, abs_le]
    constructor <;> omega

theorem pool_memory_split_witness :
    |dram_size 8192 (2/5) + pmem_size 8192 (2/5) - (8192 : ℤ)| ≤ (PAGE_SIZE : ℤ) :=
  (pool_memory_split 8192 (2/5) (by norm_num) (by norm_num) (by norm_num)).2.2

lemma affordable_mem_ratio_eval :
    affordable 42949672960 (((17179869184 : ℕ) : ℚ) * floatRatio04) = 6 := by
  have h : ⌊((42949672960 : ℕ) : ℚ) / (((17179869184 : ℕ) : ℚ) * floatRatio04)⌋ = 6 := by
    norm_num [floatRatio04]
  unfold affordable
  rw [h]
  rfl

lemma affordable_mem_eval :
    affordable 42949672960 ((17179869184 : ℕ) : ℚ) = 2 := by
  have h : ⌊((42949672960 : ℕ) : ℚ) / ((17179869184 : ℕ) : ℚ)⌋ = 2 := by norm_num
  unfold affordable
  rw [h]
  rfl

lemma guestsPrepare_none_eval :
    guestsPrepare (fun _ => 42949672960) 17179869184 floatRatio04 none true 3 60 =
      .ok [[0, 1, 2]] := by
  show outerLoop (fun _ : ℕ => affordable 42949672960 (((17179869184 : ℕ) : ℚ) * floatRatio04))
      ((List.range 60).reverse) 0 3 = .ok [[0, 1, 2]]
  rw [show (fun _ : ℕ => affordable 42949672960 (((17179869184 : ℕ) : ℚ) * floatRatio04)) =
      (fun _ : ℕ => 6) from funext fun _ => affordable_mem_ratio_eval]
  rfl

lemma guestsPrepare_hetero_eval :
    guestsPrepare (fun _ => 42949672960) 17179869184 floatRatio04 (some .hetero) true 3 60 =
      .ok [[1, 2], [0]] := by
  show outerLoop (fun _ : ℕ => affordable 42949672960 ((17179869184 : ℕ) : ℚ))
      ((List.range 60).reverse) 0 3 = .ok [[1, 2], [0]]
  rw [show (fun _ : ℕ => affordable 42949672960 ((17179869184 : ℕ) : ℚ)) =
      (fun _ : ℕ => 2) from funext fun _ => affordable_mem_eval]
  rfl

/-- Claim C8 counterexample: at the claim's input (3 VMs, 16 GiB each,
40 GiB free on the DRAM node, `balloon = none`, hetero pooling, default
dram_ratio 0.4) the admission loop produces one batch of size 3, not
`{2 VMs, then 1 VM}`: with `balloon = none` the per-VM requirement is
`mem * dram_ratio` = 6.4 GiB, so 6 VMs are affordable. -/
theorem three_vm_batching_counterexample :
    (guestsPrepare (fun _ => 42949672960) 17179869184 floatRatio04 none true 3 60).map
        (fun bs => bs.map List.length) = .ok [3] ∧
    ([3] : List ℕ) ≠ [2, 1] := by
  constructor
  · rw [guestsPrepare_none_eval]
    rfl
  · decide

/-- Claim C8 (amended): pool of 3 VMs with 16 GiB each and 40 GiB free on
the DRAM node, default dram_ratio 0.4: with `balloon = none` all 3 VMs are
admitted in one batch (per-VM requirement `mem * dram_ratio` = 6.4 GiB);
the `{2 VMs, then 1 VM}` batching arises when a balloon mode is enabled
(per-VM requirement is then the full 16 GiB), the batches being taken from
the back of the pending list; with `hetero = false` the whole pool is one
batch with no memory gating. -/
theorem three_vm_batching :
    guestsPrepare (fun _ => 42949672960) 17179869184 floatRatio04 none true 3 60 =
      .ok [[0, 1, 2]] ∧
    guestsPrepare (fun _ => 42949672960) 17179869184 floatRatio04 (some .hetero) true 3 60 =
      .ok [[1, 2], [0]] ∧
    guestsPrepare (fun _ => 42949672960) 17179869184 floatRatio04 none false 3 60 =
      .ok [[0, 1, 2]] :=
  ⟨guestsPrepare_none_eval, guestsPrepare_hetero_eval, rfl⟩

end Demeter
